import Mathlib

/-!
Verification development for the NpmPackageUpgrader repair core
(`packageJsonUtils.ts`).  The TypeScript source is shallowly embedded:
JavaScript `Record<string, string>` objects become insertion-ordered
association lists with unique keys, the module-level removal accumulators
become an explicit `RemovalRecords` value threaded through every operation,
and the external `yarn install` invocation becomes an oracle
`Nat → Option String` giving, for each attempt index, either success
(`none`) or the failure diagnostic text (`some err`).
-/

/-- A JavaScript `Record<string, string>`: an insertion-ordered list of
(name, value) pairs (`type Dependencies = Record<string, string>`). -/
abbrev Dependencies := List (String × String)

/-- JavaScript record assignment `record[name] = version`: if the key is
present its value is overwritten in place, otherwise the pair is appended. -/
def recordSet (record : Dependencies) (name version : String) : Dependencies :=
  if record.any (fun p => p.1 == name) then
    record.map (fun p => if p.1 == name then (name, version) else p)
  else
    record ++ [(name, version)]

/-- The descriptor stored for each key of the `LockedDependencies` input
(`types.ts`: `{ name: string; version: string }`). -/
structure LockedDescriptor where
  name : String
  version : String
deriving Repr, DecidableEq

/-- `LockedDependencies` (`types.ts`): a record from package name to
descriptor, embedded as an association list. -/
abbrev LockedDependencies := List (String × LockedDescriptor)

/-- JavaScript `name in locked` membership test. -/
def lockedHas (locked : LockedDependencies) (name : String) : Bool :=
  locked.any (fun p => p.1 == name)

/-- `PackageJson` (`types.ts`): three optional string-record fields. -/
structure PackageJson where
  dependencies : Option Dependencies
  devDependencies : Option Dependencies
  scripts : Option Dependencies
deriving Repr, DecidableEq

/-- The `dependencyType` argument of the source, the string union
`"local" | "locked"`. -/
inductive DependencyType where
  | localType
  | lockedType
deriving Repr, DecidableEq

/-- The five module-level accumulators of `packageJsonUtils.ts`
(`removedLocalDeps`, `removedLocalDevDeps`, `removedLockedDeps`,
`removedLockedDevDeps`, `removedScripts`), made an explicit state value. -/
structure RemovalRecords where
  removedLocalDeps : Dependencies
  removedLocalDevDeps : Dependencies
  removedLockedDeps : Dependencies
  removedLockedDevDeps : Dependencies
  removedScripts : Dependencies
deriving Repr, DecidableEq

/-- The all-empty accumulators present at module initialization. -/
def emptyRecords : RemovalRecords := ⟨[], [], [], [], []⟩

/-- `getRecord(dependencyType, isDevDep)`: selects the accumulator bucket. -/
def getRecord (dependencyType : DependencyType) (isDevDep : Bool)
    (recs : RemovalRecords) : Dependencies :=
  match dependencyType, isDevDep with
  | .localType, true => recs.removedLocalDevDeps
  | .localType, false => recs.removedLocalDeps
  | .lockedType, true => recs.removedLockedDevDeps
  | .lockedType, false => recs.removedLockedDeps

/-- Writing back the bucket selected by `getRecord` (in the source the
bucket is a mutable module-level object, so the write is implicit). -/
def setRecord (dependencyType : DependencyType) (isDevDep : Bool)
    (v : Dependencies) (recs : RemovalRecords) : RemovalRecords :=
  match dependencyType, isDevDep with
  | .localType, true => { recs with removedLocalDevDeps := v }
  | .localType, false => { recs with removedLocalDeps := v }
  | .lockedType, true => { recs with removedLockedDevDeps := v }
  | .lockedType, false => { recs with removedLockedDeps := v }

/-- The loop body of `removeAndRecordDependencies`: iterate over the
snapshot of `Object.entries(dependencies)` in order; for an entry passing
`condition` do `record[name] = version; delete dependencies[name]`
(i.e. the entry moves to the record and is dropped from the kept list),
otherwise the entry stays. -/
def removeAndRecordEntries :
    List (String × String) → (String → Bool) → Dependencies →
    List (String × String) × Dependencies
  | [], _, record => ([], record)
  | (name, version) :: rest, condition, record =>
    if condition name then
      removeAndRecordEntries rest condition (recordSet record name version)
    else
      let r := removeAndRecordEntries rest condition record
      ((name, version) :: r.1, r.2)

/-- `removeAndRecordDependencies(dependencies, isDevDep, dependencyType,
condition)`: no-op on an absent map; otherwise moves every entry whose name
satisfies `condition` into the bucket chosen by `getRecord`. -/
def removeAndRecordDependencies (dependencies : Option Dependencies)
    (isDevDep : Bool) (dependencyType : DependencyType)
    (condition : String → Bool) (recs : RemovalRecords) :
    Option Dependencies × RemovalRecords :=
  match dependencies with
  | none => (none, recs)
  | some ds =>
    let r := removeAndRecordEntries ds condition (getRecord dependencyType isDevDep recs)
    (some r.1, setRecord dependencyType isDevDep r.2 recs)

/-- Model of JavaScript `String.prototype.startsWith` over the character
lists of the two strings: is `pre.data` an initial segment of `s.data`?
(The core `String.startsWith` is byte-position based and does not reduce
in the kernel, so the character-level equivalent is used.) -/
def strStartsWithAux : List Char → List Char → Bool
  | [], _ => true
  | _ :: _, [] => false
  | l :: ls, c :: cs => c == l && strStartsWithAux ls cs

/-- Whether string `s` starts with the string `pre`. -/
def strStartsWith (s pre : String) : Bool := strStartsWithAux pre.data s.data

/-- `removeAliasDeps(alias, dependencies, isDevDep)`: prunes into the
"local" buckets the entries whose name starts with `` `${alias}/` ``. -/
def removeAliasDeps (aliasName : String) (dependencies : Option Dependencies)
    (isDevDep : Bool) (recs : RemovalRecords) :
    Option Dependencies × RemovalRecords :=
  removeAndRecordDependencies dependencies isDevDep .localType
    (fun name => strStartsWith name (aliasName ++ "/")) recs

/-- `removeLockedDeps(locked, dependencies, isDevDep)`: prunes into the
"locked" buckets the entries whose name is a key of `locked`. -/
def removeLockedDeps (locked : LockedDependencies)
    (dependencies : Option Dependencies) (isDevDep : Bool)
    (recs : RemovalRecords) : Option Dependencies × RemovalRecords :=
  removeAndRecordDependencies dependencies isDevDep .lockedType
    (fun name => lockedHas locked name) recs

/-- `removeScripts(packageJson)`: if a `scripts` mapping is present
(JavaScript truthiness: any object, even empty, passes the guard), every
entry is copied into the `removedScripts` accumulator and the whole mapping
is deleted from the manifest. -/
def removeScripts (packageJson : PackageJson) (recs : RemovalRecords) :
    PackageJson × RemovalRecords :=
  match packageJson.scripts with
  | some scripts =>
    ({ packageJson with scripts := none },
     { recs with removedScripts :=
        scripts.foldl (fun r p => recordSet r p.1 p.2) recs.removedScripts })
  | none => (packageJson, recs)

/- ### Error classifier (`parseErrorForPackageAlias`) -/

/-- The double-quote character, `"`. -/
def quoteChar : Char := Char.ofNat 34

/-- The apostrophe character. -/
def apostropheChar : Char := Char.ofNat 39

/-- One diagnostic regex of the source, each of the shape
`LEAD([^STOP]+)TRAIL` with literal lead/trail text and a one-character
negated class: `lead` is the literal before the capture group, `stop` the
excluded character, `trail` the literal after the capture group. -/
structure DiagnosticShape where
  lead : List Char
  stop : Char
  trail : List Char

/-- First regex: `https:\/\/registry\.yarnpkg\.com\/([^:]+): Not found`. -/
def registryShape : DiagnosticShape :=
  ⟨("https://registry.yarnpkg.com/").data, ':', (": Not found").data⟩

/-- Second regex: the Couldn-t-find-package diagnostic, capturing the
quoted package name (`[^"]+` between two double quotes). -/
def packageShape : DiagnosticShape :=
  ⟨("error Couldn").data ++ apostropheChar :: ("t find package ").data ++ [quoteChar],
   quoteChar, [quoteChar]⟩

/-- Third regex: the Couldn-t-find-any-versions diagnostic, capturing the
quoted package name followed by the literal ` that matches`. -/
def versionsShape : DiagnosticShape :=
  ⟨("error Couldn").data ++ apostropheChar :: ("t find any versions for ").data ++ [quoteChar],
   quoteChar, quoteChar :: (" that matches").data⟩

/-- The ordered `patterns` array of `parseErrorForPackageAlias`. -/
def diagnosticShapes : List DiagnosticShape :=
  [registryShape, packageShape, versionsShape]

/-- Consume the literal `lead` from the front of the input, returning the
remainder, or `none` if the input does not start with it. -/
def dropLead : List Char → List Char → Option (List Char)
  | [], cs => some cs
  | _ :: _, [] => none
  | l :: ls, c :: cs => if c == l then dropLead ls cs else none

/-- Try to match a shape anchored at the current position: the literal
lead, then a non-empty maximal run of characters other than `stop` (the
greedy `[^stop]+` — since `trail` begins with `stop`, the greedy run is the
only candidate), then the literal trail.  Returns the captured run. -/
def tryShapeAt (sh : DiagnosticShape) (cs : List Char) : Option (List Char) :=
  match dropLead sh.lead cs with
  | none => none
  | some rest =>
    let cap := rest.takeWhile (fun c => c != sh.stop)
    let rest2 := rest.dropWhile (fun c => c != sh.stop)
    if cap.isEmpty then none
    else if (dropLead sh.trail rest2).isSome then some cap else none

/-- `RegExp.exec` for one shape: scan positions left to right, first
position where the whole shape matches wins, and return capture group 1. -/
def execShape (sh : DiagnosticShape) : List Char → Option (List Char)
  | [] => tryShapeAt sh []
  | c :: rest =>
    match tryShapeAt sh (c :: rest) with
    | some cap => some cap
    | none => execShape sh rest

/-- Value of a hexadecimal digit character, if it is one. -/
def hexDigit (c : Char) : Option Nat :=
  let n := c.toNat
  if 48 ≤ n ∧ n ≤ 57 then some (n - 48)
  else if 65 ≤ n ∧ n ≤ 70 then some (n - 55)
  else if 97 ≤ n ∧ n ≤ 102 then some (n - 87)
  else none

/-- Model of JavaScript `decodeURIComponent` on the inputs the classifier
meets: each `%XY` with two hexadecimal digits becomes the character with
code `16*X + Y` (exact for single-byte sequences such as `%40` and `%2F`;
JavaScript additionally reassembles multi-byte UTF-8 sequences and throws
on malformed input, which the diagnostics here never contain — a malformed
`%` is kept literally). -/
def percentDecodeChars : List Char → List Char
  | [] => []
  | c :: a :: b :: rest2 =>
    if c == '%' then
      match hexDigit a, hexDigit b with
      | some ha, some hb => Char.ofNat (16 * ha + hb) :: percentDecodeChars rest2
      | _, _ => c :: percentDecodeChars (a :: b :: rest2)
    else c :: percentDecodeChars (a :: b :: rest2)
  | c :: rest => c :: percentDecodeChars rest

/-- `decodedString.match(/^([^\/]+)/)`: the non-empty maximal run of
non-slash characters at the very start, if any. -/
def leadingAlias (cs : List Char) : Option (List Char) :=
  let cap := cs.takeWhile (fun c => c != '/')
  if cap.isEmpty then none else some cap

/-- The alias a single shape extracts from a diagnostic: match the shape,
percent-decode the capture, and take the part before the first `/`. -/
def shapeAlias (sh : DiagnosticShape) (error : String) : Option String :=
  match execShape sh error.data with
  | some captured =>
    match leadingAlias (percentDecodeChars captured) with
    | some a => some (String.mk a)
    | none => none
  | none => none

/-- The `for (const pattern of patterns)` loop of
`parseErrorForPackageAlias`: try each shape in order; on a regex match
whose decoded capture yields an alias, return it; otherwise fall through to
the next pattern; after the last pattern return `null`. -/
def parseGo : List DiagnosticShape → String → Option String
  | [], _ => none
  | sh :: rest, error =>
    match execShape sh error.data with
    | some captured =>
      match leadingAlias (percentDecodeChars captured) with
      | some a => some (String.mk a)
      | none => parseGo rest error
    | none => parseGo rest error

/-- `parseErrorForPackageAlias(error)`: the error classifier. -/
def parseErrorForPackageAlias (error : String) : Option String :=
  parseGo diagnosticShapes error

/- ### Retry loop (`attemptInstallWithRetries`) and `cleanPackageJson` -/

/-- How the `while` loop of `attemptInstallWithRetries` ended: the `break`
after a successful install, the `break` after an unclassifiable diagnostic
(which is carried verbatim), or `retryCount` reaching `maxRetries`. -/
inductive InstallExit where
  | success
  | aborted (diagnostic : String)
  | exhausted
deriving Repr, DecidableEq

/-- The observable outcome of the retry loop: final manifest, final
accumulators, number of `yarn install` invocations, and exit kind. -/
structure LoopResult where
  packageJson : PackageJson
  records : RemovalRecords
  attempts : Nat
  exit : InstallExit
deriving Repr, DecidableEq

/-- The `while (retryCount < maxRetries)` loop of
`attemptInstallWithRetries`, with the remaining budget as fuel.  The
oracle gives the outcome of each attempt: `none` is a successful install
(`break` without incrementing `retryCount`), `some err` a failure; an
unclassifiable failure also `break`s, while a classified one prunes both
dependency maps with the alias, persists the manifest, and retries. -/
def installLoop (oracle : Nat → Option String) (attempt : Nat)
    (pj : PackageJson) (recs : RemovalRecords) : Nat → LoopResult
  | 0 => ⟨pj, recs, 0, .exhausted⟩
  | fuel + 1 =>
    match oracle attempt with
    | none => ⟨pj, recs, 1, .success⟩
    | some err =>
      match parseErrorForPackageAlias err with
      | none => ⟨pj, recs, 1, .aborted err⟩
      | some packageAlias =>
        let d := removeAliasDeps packageAlias pj.dependencies false recs
        let dv := removeAliasDeps packageAlias pj.devDependencies true d.2
        let pj2 : PackageJson :=
          { pj with dependencies := d.1, devDependencies := dv.1 }
        let r := installLoop oracle (attempt + 1) pj2 dv.2 fuel
        { r with attempts := r.attempts + 1 }

/-- `attemptInstallWithRetries(packageJson, projectRootPath, maxRetries)`,
starting from `retryCount = 0`. -/
def attemptInstallWithRetries (oracle : Nat → Option String)
    (packageJson : PackageJson) (recs : RemovalRecords)
    (maxRetries : Nat) : LoopResult :=
  installLoop oracle 0 packageJson recs maxRetries

/-- The `maxRetries` expression of `cleanPackageJson` evaluated at loop
entry: `Object.keys(packageJson.dependencies || {}).length +
Object.keys(packageJson.devDependencies || {}).length` after the scripts
and locked-set pre-passes. -/
def entryBudget (packageJson : PackageJson)
    (lockedDependencies : LockedDependencies) : Nat :=
  let s := removeScripts packageJson emptyRecords
  let d := removeLockedDeps lockedDependencies s.1.dependencies false s.2
  let dv := removeLockedDeps lockedDependencies s.1.devDependencies true d.2
  (d.1.getD []).length + (dv.1.getD []).length

/-- `cleanPackageJson(projectRootPath, lockedDependencies, exportRootPath)`
up to (not including) the audit export: load the manifest, strip scripts,
strip locked dependencies from both maps, compute `maxRetries`, and run the
retry loop.  The accumulators start empty as at module load. -/
def cleanPackageJson (packageJson : PackageJson)
    (lockedDependencies : LockedDependencies)
    (oracle : Nat → Option String) : LoopResult :=
  let s := removeScripts packageJson emptyRecords
  let d := removeLockedDeps lockedDependencies s.1.dependencies false s.2
  let dv := removeLockedDeps lockedDependencies s.1.devDependencies true d.2
  let pj2 : PackageJson :=
    { s.1 with dependencies := d.1, devDependencies := dv.1 }
  let maxRetries := (d.1.getD []).length + (dv.1.getD []).length
  installLoop oracle 0 pj2 dv.2 maxRetries

/- ### Audit exporter (`saveRemovedItems`, `saveJson`) -/

/-- A JSON document written by the exporter: either one plain record, or
the `allRemovedItems.json` summary object with its three fields. -/
inductive JsonDoc where
  | record (entries : Dependencies)
  | summary (scripts localDependencies devDependencies : Dependencies)
deriving Repr, DecidableEq

/-- A filesystem effect the exporter may perform.  The source only ever
writes files; the `makeDir` constructor exists so that the absence of
directory creation is expressible. -/
inductive FsOp where
  | makeDir (dir : String)
  | writeJson (filePath : String) (data : JsonDoc)
deriving Repr, DecidableEq

/-- `path.join`/`path.resolve` on one relative segment. -/
def joinPath (a b : String) : String := a ++ "/" ++ b

/-- `saveJson(dir, fileName, data)`: one `fs.writeFileSync` of the
serialized data to `path.join(dir, fileName)`; no directory is created. -/
def saveJson (dir fileName : String) (data : JsonDoc) : FsOp :=
  .writeJson (joinPath dir fileName) data

/-- JavaScript object spread `{ ...a, ...b }` on string records: keys of
`a` in order, then the keys of `b`, later values overwriting earlier. -/
def spreadMerge (a b : Dependencies) : Dependencies :=
  b.foldl (fun r p => recordSet r p.1 p.2) a

/-- `saveRemovedItems(exportRootPath)`: the four unconditional writes — the
three detail records under `details/` and the combined summary. -/
def saveRemovedItems (exportRootPath : String) (recs : RemovalRecords) :
    List FsOp :=
  let detailsPath := joinPath exportRootPath "details"
  [ saveJson detailsPath "removedLocalPackages.json" (.record recs.removedLocalDeps),
    saveJson detailsPath "removedLockedPackages.json" (.record recs.removedLockedDeps),
    saveJson detailsPath "removedScripts.json" (.record recs.removedScripts),
    saveJson exportRootPath "allRemovedItems.json"
      (.summary recs.removedScripts
        (spreadMerge recs.removedLocalDeps recs.removedLockedDeps)
        (spreadMerge recs.removedLocalDevDeps recs.removedLockedDevDeps)) ]

/-- Whether an effect list contains a directory creation. -/
def containsMakeDir : List FsOp → Bool
  | [] => false
  | .makeDir _ :: _ => true
  | .writeJson _ _ :: rest => containsMakeDir rest

/-- The whole of `cleanPackageJson` including the final unconditional
`saveRemovedItems(exportRootPath)` call: the loop outcome together with the
effect trace of the exporter. -/
def cleanPackageJsonRun (packageJson : PackageJson)
    (lockedDependencies : LockedDependencies)
    (oracle : Nat → Option String) (exportRootPath : String) :
    LoopResult × List FsOp :=
  let r := cleanPackageJson packageJson lockedDependencies oracle
  (r, saveRemovedItems exportRootPath r.records)

/-- The keys of a record, in order. -/
abbrev keysOf (l : Dependencies) : List String := l.map Prod.fst

/-- The Scenario A diagnostic: the Couldn-t-find-package failure text for
`left-pad` (built character-wise to keep quotes and the apostrophe out of
the string literal). -/
def leftPadDiagnostic : String :=
  String.mk (("error Couldn").data ++ apostropheChar :: ("t find package ").data ++
    quoteChar :: ("left-pad").data ++ [quoteChar])

/-- First defined value in an ordered list of optional results: the
explicit first-matcher-wins combinator the classifier implements. -/
def firstSome : List (Option String) → Option String
  | [] => none
  | some a :: _ => some a
  | none :: rest => firstSome rest

/-- Everything a run can do with a (non-dev) dependency name: still in the
manifest, in the local removal bucket, or in the locked removal bucket. -/
def depTriple (pj : PackageJson) (recs : RemovalRecords) : Dependencies :=
  (pj.dependencies.getD [] ++ recs.removedLocalDeps) ++ recs.removedLockedDeps

/-- Counterpart of `depTriple` for the devDependency map and buckets. -/
def devTriple (pj : PackageJson) (recs : RemovalRecords) : Dependencies :=
  (pj.devDependencies.getD [] ++ recs.removedLocalDevDeps) ++ recs.removedLockedDevDeps

/- ### Helper lemmas: records and pruning -/

lemma removeAndRecordEntries_fst (ds : List (String × String))
    (c : String → Bool) (record : Dependencies) :
    (removeAndRecordEntries ds c record).1 = ds.filter (fun p => !c p.1) := by
  induction ds generalizing record with
  | nil => simp [removeAndRecordEntries]
  | cons p rest ih =>
    obtain ⟨name, version⟩ := p
    by_cases h : c name
    · simp [removeAndRecordEntries, h, List.filter_cons, ih]
    · simp [removeAndRecordEntries, h, List.filter_cons, ih]

lemma removeAndRecordEntries_snd (ds : List (String × String))
    (c : String → Bool) (record : Dependencies) :
    (removeAndRecordEntries ds c record).2 =
      (ds.filter (fun p => c p.1)).foldl (fun r p => recordSet r p.1 p.2) record := by
  induction ds generalizing record with
  | nil => simp [removeAndRecordEntries]
  | cons p rest ih =>
    obtain ⟨name, version⟩ := p
    by_cases h : c name
    · simp [removeAndRecordEntries, h, List.filter_cons, ih]
    · simp [removeAndRecordEntries, h, List.filter_cons, ih]

lemma recordSet_append_of_fresh (record : Dependencies) (name version : String)
    (h : ∀ p ∈ record, p.1 ≠ name) :
    recordSet record name version = record ++ [(name, version)] := by
  have hany : record.any (fun p => p.1 == name) = false := by
    rw [List.any_eq_false]
    intro p hp
    simpa using h p hp
  simp [recordSet, hany]

lemma foldl_recordSet_append (l : Dependencies) :
    ∀ record : Dependencies, (keysOf l).Nodup →
      (∀ k ∈ keysOf l, k ∉ keysOf record) →
      l.foldl (fun r p => recordSet r p.1 p.2) record = record ++ l := by
  induction l with
  | nil => intro record _ _; simp
  | cons p rest ih =>
    intro record hnd hdisj
    simp only [keysOf, List.map_cons, List.nodup_cons] at hnd
    have hfresh : ∀ q ∈ record, q.1 ≠ p.1 := by
      intro q hq hqe
      exact hdisj p.1 (by simp [keysOf]) (by simp only [keysOf, List.mem_map]; exact ⟨q, hq, hqe⟩)
    have hdisj2 : ∀ k ∈ keysOf rest, k ∉ keysOf (record ++ [p]) := by
      intro k hk hmem
      simp only [keysOf, List.map_append, List.mem_append, List.map_cons, List.map_nil,
        List.mem_singleton] at hmem
      rcases hmem with hmem | hmem
      · exact hdisj k (by simp [keysOf, hk]) hmem
      · exact hnd.1 (hmem ▸ hk)
    calc rest.foldl (fun r q => recordSet r q.1 q.2) (recordSet record p.1 p.2)
        = rest.foldl (fun r q => recordSet r q.1 q.2) (record ++ [p]) := by
          rw [recordSet_append_of_fresh record p.1 p.2 hfresh]
      _ = (record ++ [p]) ++ rest := ih (record ++ [p]) hnd.2 hdisj2
      _ = record ++ p :: rest := by simp

lemma filterSplitPerm {α : Type} (c : α → Bool) (l : List α) :
    ((l.filter fun a => !c a) ++ l.filter c).Perm l := by
  induction l with
  | nil => simp
  | cons a l ih =>
    by_cases h : c a
    · simpa [List.filter_cons, h] using List.perm_middle.trans (ih.cons a)
    · simpa [List.filter_cons, h] using ih.cons a

lemma filterSplit_ms {α : Type} (c : α → Bool) (l : List α) :
    ((l.filter fun a => !c a : List α) : Multiset α) + ↑(l.filter c) = ↑l := by
  rw [Multiset.coe_add, Multiset.coe_eq_coe]
  exact filterSplitPerm c l

lemma tripleNodup_parts {m bl bk : Dependencies}
    (h : (keysOf ((m ++ bl) ++ bk)).Nodup) :
    (keysOf m).Nodup ∧ (∀ k ∈ keysOf m, k ∉ keysOf bl) ∧
      (∀ k ∈ keysOf m, k ∉ keysOf bk) := by
  simp only [keysOf, List.map_append] at h
  have h1 := List.nodup_append.mp h
  have h2 := List.nodup_append.mp h1.1
  refine ⟨h2.1, fun k hk => h2.2.2 hk, fun k hk hbk => ?_⟩
  exact h1.2.2 (List.mem_append_left _ hk) hbk

lemma keysOf_filter_nodup {m : Dependencies} (c : String × String → Bool)
    (hm : (keysOf m).Nodup) : (keysOf (m.filter c)).Nodup :=
  List.Nodup.sublist (List.Sublist.map Prod.fst (List.filter_sublist m)) hm

lemma keysOf_filter_subset {m : Dependencies} (c : String × String → Bool) :
    ∀ k ∈ keysOf (m.filter c), k ∈ keysOf m :=
  fun _ hk => List.Sublist.subset (List.Sublist.map Prod.fst (List.filter_sublist m)) hk

lemma pruneStepLocal_perm (m bl bk : Dependencies) (c : String → Bool)
    (h : (keysOf ((m ++ bl) ++ bk)).Nodup) :
    (((m.filter fun p => !c p.1) ++
      ((m.filter fun p => c p.1).foldl (fun r p => recordSet r p.1 p.2) bl)) ++ bk).Perm
      ((m ++ bl) ++ bk) := by
  obtain ⟨hm, hbl, _⟩ := tripleNodup_parts h
  have hfold : (m.filter fun p => c p.1).foldl (fun r p => recordSet r p.1 p.2) bl =
      bl ++ (m.filter fun p => c p.1) := by
    refine foldl_recordSet_append _ bl (keysOf_filter_nodup _ hm) ?_
    intro k hk
    exact hbl k (keysOf_filter_subset _ k hk)
  rw [hfold, ← Multiset.coe_eq_coe]
  simp only [← Multiset.coe_add]
  rw [← filterSplit_ms (fun p : String × String => c p.1) m]
  abel

lemma pruneStepLocked_perm (m bl bk : Dependencies) (c : String → Bool)
    (h : (keysOf ((m ++ bl) ++ bk)).Nodup) :
    (((m.filter fun p => !c p.1) ++ bl) ++
      ((m.filter fun p => c p.1).foldl (fun r p => recordSet r p.1 p.2) bk)).Perm
      ((m ++ bl) ++ bk) := by
  obtain ⟨hm, _, hbk⟩ := tripleNodup_parts h
  have hfold : (m.filter fun p => c p.1).foldl (fun r p => recordSet r p.1 p.2) bk =
      bk ++ (m.filter fun p => c p.1) := by
    refine foldl_recordSet_append _ bk (keysOf_filter_nodup _ hm) ?_
    intro k hk
    exact hbk k (keysOf_filter_subset _ k hk)
  rw [hfold, ← Multiset.coe_eq_coe]
  simp only [← Multiset.coe_add]
  rw [← filterSplit_ms (fun p : String × String => c p.1) m]
  abel

lemma setRecord_getRecord (dependencyType : DependencyType) (isDevDep : Bool)
    (recs : RemovalRecords) :
    setRecord dependencyType isDevDep (getRecord dependencyType isDevDep recs) recs = recs := by
  cases dependencyType <;> cases isDevDep <;> rfl

lemma removeAndRecordDependencies_fst (dependencies : Option Dependencies)
    (isDevDep : Bool) (dependencyType : DependencyType)
    (condition : String → Bool) (recs : RemovalRecords) :
    (removeAndRecordDependencies dependencies isDevDep dependencyType condition recs).1 =
      dependencies.map (fun ds => ds.filter (fun p => !condition p.1)) := by
  cases dependencies <;>
    simp [removeAndRecordDependencies, removeAndRecordEntries_fst]

lemma removeAndRecordDependencies_snd (dependencies : Option Dependencies)
    (isDevDep : Bool) (dependencyType : DependencyType)
    (condition : String → Bool) (recs : RemovalRecords) :
    (removeAndRecordDependencies dependencies isDevDep dependencyType condition recs).2 =
      setRecord dependencyType isDevDep
        (((dependencies.getD []).filter (fun p => condition p.1)).foldl
          (fun r p => recordSet r p.1 p.2) (getRecord dependencyType isDevDep recs)) recs := by
  cases dependencies with
  | none => simp [removeAndRecordDependencies, setRecord_getRecord]
  | some ds => simp [removeAndRecordDependencies, removeAndRecordEntries_snd]

lemma getD_map_filter (dOpt : Option Dependencies) (q : String × String → Bool) :
    (dOpt.map (fun ds => ds.filter q)).getD [] = (dOpt.getD []).filter q := by
  cases dOpt <;> simp

lemma removeAliasDeps_fst (aliasName : String) (dependencies : Option Dependencies)
    (isDevDep : Bool) (recs : RemovalRecords) :
    (removeAliasDeps aliasName dependencies isDevDep recs).1 =
      dependencies.map (fun ds =>
        ds.filter (fun p => !strStartsWith p.1 (aliasName ++ "/"))) := by
  simp [removeAliasDeps, removeAndRecordDependencies_fst]

lemma removeAliasDeps_snd_main (aliasName : String) (dependencies : Option Dependencies)
    (recs : RemovalRecords) :
    (removeAliasDeps aliasName dependencies false recs).2 =
      { recs with removedLocalDeps :=
          (((dependencies.getD []).filter (fun p => strStartsWith p.1 (aliasName ++ "/"))).foldl
            (fun r p => recordSet r p.1 p.2) recs.removedLocalDeps) } := by
  simp [removeAliasDeps, removeAndRecordDependencies_snd, setRecord, getRecord]

lemma removeAliasDeps_snd_dev (aliasName : String) (dependencies : Option Dependencies)
    (recs : RemovalRecords) :
    (removeAliasDeps aliasName dependencies true recs).2 =
      { recs with removedLocalDevDeps :=
          (((dependencies.getD []).filter (fun p => strStartsWith p.1 (aliasName ++ "/"))).foldl
            (fun r p => recordSet r p.1 p.2) recs.removedLocalDevDeps) } := by
  simp [removeAliasDeps, removeAndRecordDependencies_snd, setRecord, getRecord]

lemma removeLockedDeps_fst (locked : LockedDependencies)
    (dependencies : Option Dependencies) (isDevDep : Bool) (recs : RemovalRecords) :
    (removeLockedDeps locked dependencies isDevDep recs).1 =
      dependencies.map (fun ds => ds.filter (fun p => !lockedHas locked p.1)) := by
  simp [removeLockedDeps, removeAndRecordDependencies_fst]

lemma removeLockedDeps_snd_main (locked : LockedDependencies)
    (dependencies : Option Dependencies) (recs : RemovalRecords) :
    (removeLockedDeps locked dependencies false recs).2 =
      { recs with removedLockedDeps :=
          (((dependencies.getD []).filter (fun p => lockedHas locked p.1)).foldl
            (fun r p => recordSet r p.1 p.2) recs.removedLockedDeps) } := by
  simp [removeLockedDeps, removeAndRecordDependencies_snd, setRecord, getRecord]

lemma removeLockedDeps_snd_dev (locked : LockedDependencies)
    (dependencies : Option Dependencies) (recs : RemovalRecords) :
    (removeLockedDeps locked dependencies true recs).2 =
      { recs with removedLockedDevDeps :=
          (((dependencies.getD []).filter (fun p => lockedHas locked p.1)).foldl
            (fun r p => recordSet r p.1 p.2) recs.removedLockedDevDeps) } := by
  simp [removeLockedDeps, removeAndRecordDependencies_snd, setRecord, getRecord]

lemma removeScripts_fst_dependencies (pj : PackageJson) (recs : RemovalRecords) :
    (removeScripts pj recs).1.dependencies = pj.dependencies := by
  cases h : pj.scripts <;> simp [removeScripts, h]

lemma removeScripts_fst_devDependencies (pj : PackageJson) (recs : RemovalRecords) :
    (removeScripts pj recs).1.devDependencies = pj.devDependencies := by
  cases h : pj.scripts <;> simp [removeScripts, h]

lemma removeScripts_fst_scripts (pj : PackageJson) (recs : RemovalRecords) :
    (removeScripts pj recs).1.scripts = none := by
  cases h : pj.scripts <;> simp [removeScripts, h]

lemma removeScripts_snd_dep_buckets (pj : PackageJson) (recs : RemovalRecords) :
    (removeScripts pj recs).2.removedLocalDeps = recs.removedLocalDeps ∧
    (removeScripts pj recs).2.removedLocalDevDeps = recs.removedLocalDevDeps ∧
    (removeScripts pj recs).2.removedLockedDeps = recs.removedLockedDeps ∧
    (removeScripts pj recs).2.removedLockedDevDeps = recs.removedLockedDevDeps := by
  cases h : pj.scripts <;> simp [removeScripts, h]

lemma removeScripts_snd_removedScripts (pj : PackageJson) (recs : RemovalRecords) :
    (removeScripts pj recs).2.removedScripts =
      (pj.scripts.getD []).foldl (fun r p => recordSet r p.1 p.2) recs.removedScripts := by
  cases h : pj.scripts <;> simp [removeScripts, h]

/- ### Helper lemmas: the retry loop -/

lemma installLoop_attempts_le (oracle : Nat → Option String) :
    ∀ (fuel attempt : Nat) (pj : PackageJson) (recs : RemovalRecords),
      (installLoop oracle attempt pj recs fuel).attempts ≤ fuel := by
  intro fuel
  induction fuel with
  | zero => intro attempt pj recs; simp [installLoop]
  | succ fuel ih =>
    intro attempt pj recs
    cases ho : oracle attempt with
    | none =>
      have h : (installLoop oracle attempt pj recs (fuel + 1)).attempts = 1 := by
        simp [installLoop, ho]
      omega
    | some err =>
      cases hp : parseErrorForPackageAlias err with
      | none =>
        have h : (installLoop oracle attempt pj recs (fuel + 1)).attempts = 1 := by
          simp [installLoop, ho, hp]
        omega
      | some packageAlias =>
        simp only [installLoop, ho, hp]
        exact Nat.succ_le_succ (ih _ _ _)

lemma installLoop_deps_sublist (oracle : Nat → Option String) :
    ∀ (fuel attempt : Nat) (pj : PackageJson) (recs : RemovalRecords),
      ((installLoop oracle attempt pj recs fuel).packageJson.dependencies.getD []).Sublist
          (pj.dependencies.getD []) ∧
      ((installLoop oracle attempt pj recs fuel).packageJson.devDependencies.getD []).Sublist
          (pj.devDependencies.getD []) := by
  intro fuel
  induction fuel with
  | zero =>
    intro attempt pj recs
    simp only [installLoop]
    exact ⟨List.Sublist.refl _, List.Sublist.refl _⟩
  | succ fuel ih =>
    intro attempt pj recs
    cases ho : oracle attempt with
    | none =>
      simp only [installLoop, ho]
      exact ⟨List.Sublist.refl _, List.Sublist.refl _⟩
    | some err =>
      cases hp : parseErrorForPackageAlias err with
      | none =>
        simp only [installLoop, ho, hp]
        exact ⟨List.Sublist.refl _, List.Sublist.refl _⟩
      | some packageAlias =>
        simp only [installLoop, ho, hp]
        refine ⟨List.Sublist.trans (ih _ _ _).1 ?_, List.Sublist.trans (ih _ _ _).2 ?_⟩
        · simp only [removeAliasDeps_fst, getD_map_filter]
          exact List.filter_sublist _
        · simp only [removeAliasDeps_fst, getD_map_filter]
          exact List.filter_sublist _

lemma pruneTransition_dep_perm (al : String) (pj : PackageJson) (recs : RemovalRecords)
    (hd : (keysOf (depTriple pj recs)).Nodup) :
    (depTriple
      { pj with dependencies := (removeAliasDeps al pj.dependencies false recs).1,
                devDependencies :=
                  (removeAliasDeps al pj.devDependencies true
                    (removeAliasDeps al pj.dependencies false recs).2).1 }
      (removeAliasDeps al pj.devDependencies true
        (removeAliasDeps al pj.dependencies false recs).2).2).Perm
    (depTriple pj recs) := by
  simp only [depTriple] at hd ⊢
  simp only [removeAliasDeps_fst, removeAliasDeps_snd_main, removeAliasDeps_snd_dev,
    getD_map_filter]
  exact pruneStepLocal_perm (pj.dependencies.getD []) recs.removedLocalDeps
    recs.removedLockedDeps (fun name => strStartsWith name (al ++ "/")) hd

lemma pruneTransition_dev_perm (al : String) (pj : PackageJson) (recs : RemovalRecords)
    (hv : (keysOf (devTriple pj recs)).Nodup) :
    (devTriple
      { pj with dependencies := (removeAliasDeps al pj.dependencies false recs).1,
                devDependencies :=
                  (removeAliasDeps al pj.devDependencies true
                    (removeAliasDeps al pj.dependencies false recs).2).1 }
      (removeAliasDeps al pj.devDependencies true
        (removeAliasDeps al pj.dependencies false recs).2).2).Perm
    (devTriple pj recs) := by
  simp only [devTriple] at hv ⊢
  simp only [removeAliasDeps_fst, removeAliasDeps_snd_main, removeAliasDeps_snd_dev,
    getD_map_filter]
  exact pruneStepLocal_perm (pj.devDependencies.getD []) recs.removedLocalDevDeps
    recs.removedLockedDevDeps (fun name => strStartsWith name (al ++ "/")) hv

lemma installLoop_triple_perm (oracle : Nat → Option String) :
    ∀ (fuel attempt : Nat) (pj : PackageJson) (recs : RemovalRecords),
      (keysOf (depTriple pj recs)).Nodup →
      (keysOf (devTriple pj recs)).Nodup →
      (depTriple (installLoop oracle attempt pj recs fuel).packageJson
          (installLoop oracle attempt pj recs fuel).records).Perm (depTriple pj recs) ∧
      (devTriple (installLoop oracle attempt pj recs fuel).packageJson
          (installLoop oracle attempt pj recs fuel).records).Perm (devTriple pj recs) := by
  intro fuel
  induction fuel with
  | zero =>
    intro attempt pj recs _ _
    simp only [installLoop]
    exact ⟨List.Perm.refl _, List.Perm.refl _⟩
  | succ fuel ih =>
    intro attempt pj recs hd hv
    cases ho : oracle attempt with
    | none =>
      simp only [installLoop, ho]
      exact ⟨List.Perm.refl _, List.Perm.refl _⟩
    | some err =>
      cases hp : parseErrorForPackageAlias err with
      | none =>
        simp only [installLoop, ho, hp]
        exact ⟨List.Perm.refl _, List.Perm.refl _⟩
      | some packageAlias =>
        simp only [installLoop, ho, hp]
        have hpd := pruneTransition_dep_perm packageAlias pj recs hd
        have hpv := pruneTransition_dev_perm packageAlias pj recs hv
        have hd2 := (List.Perm.nodup_iff (hpd.map Prod.fst)).mpr hd
        have hv2 := (List.Perm.nodup_iff (hpv.map Prod.fst)).mpr hv
        exact ⟨List.Perm.trans (ih _ _ _ hd2 hv2).1 hpd,
               List.Perm.trans (ih _ _ _ hd2 hv2).2 hpv⟩

lemma removeAndRecordDependencies_snd_removedScripts (dependencies : Option Dependencies)
    (isDevDep : Bool) (dependencyType : DependencyType)
    (condition : String → Bool) (recs : RemovalRecords) :
    (removeAndRecordDependencies dependencies isDevDep dependencyType condition recs).2.removedScripts =
      recs.removedScripts := by
  rw [removeAndRecordDependencies_snd]
  cases dependencyType <;> cases isDevDep <;> simp [setRecord]

lemma installLoop_scripts_inv (oracle : Nat → Option String) :
    ∀ (fuel attempt : Nat) (pj : PackageJson) (recs : RemovalRecords),
      (installLoop oracle attempt pj recs fuel).packageJson.scripts = pj.scripts ∧
      (installLoop oracle attempt pj recs fuel).records.removedScripts = recs.removedScripts := by
  intro fuel
  induction fuel with
  | zero => intro attempt pj recs; simp [installLoop]
  | succ fuel ih =>
    intro attempt pj recs
    cases ho : oracle attempt with
    | none => simp [installLoop, ho]
    | some err =>
      cases hp : parseErrorForPackageAlias err with
      | none => simp [installLoop, ho, hp]
      | some packageAlias =>
        simp only [installLoop, ho, hp]
        refine ⟨(ih _ _ _).1.trans ?_, (ih _ _ _).2.trans ?_⟩
        · simp
        · simp [removeAliasDeps, removeAndRecordDependencies_snd_removedScripts]

/- ### Helper lemmas: the classifier -/

lemma parseGo_cons (sh : DiagnosticShape) (rest : List DiagnosticShape) (error : String) :
    parseGo (sh :: rest) error =
      match shapeAlias sh error with
      | some a => some a
      | none => parseGo rest error := by
  simp only [parseGo, shapeAlias]
  cases h : execShape sh error.data with
  | none => rfl
  | some captured =>
    cases h2 : leadingAlias (percentDecodeChars captured) <;> simp [h2]

lemma parse_eq_firstSome (error : String) :
    parseErrorForPackageAlias error =
      firstSome [shapeAlias registryShape error, shapeAlias packageShape error,
        shapeAlias versionsShape error] := by
  simp only [parseErrorForPackageAlias, diagnosticShapes]
  rw [parseGo_cons, parseGo_cons, parseGo_cons]
  cases h1 : shapeAlias registryShape error with
  | some a => simp [firstSome]
  | none =>
    cases h2 : shapeAlias packageShape error with
    | some a => simp [firstSome]
    | none =>
      cases h3 : shapeAlias versionsShape error with
      | some a => simp [firstSome, parseGo]
      | none => simp [firstSome, parseGo]

/- ### Helper lemmas: filter algebra for idempotence -/

lemma filter_not_idem {α : Type} (c : α → Bool) (l : List α) :
    ((l.filter fun a => !c a).filter fun a => !c a) = l.filter fun a => !c a := by
  rw [List.filter_filter]
  simp [Bool.and_self]

lemma filter_pos_of_filtered_neg {α : Type} (c : α → Bool) (l : List α) :
    ((l.filter fun a => !c a).filter c) = [] := by
  rw [List.filter_filter]
  simp

/- ### Claim theorems -/

/-- C1 counterexample: the claim says an entry named exactly like the alias
is removed (alias `"foo"` removes an entry literally named `"foo"`), but
`removeAliasDeps` tests only `name.startsWith(alias + "/")`, so pruning
`{"foo": "1.0.0"}` with alias `"foo"` removes nothing at all: the map and
every audit bucket are returned unchanged. -/
theorem C1_counterexample :
    removeAliasDeps "foo" (some [("foo", "1.0.0")]) false emptyRecords =
      (some [("foo", "1.0.0")], emptyRecords) := by
  decide

/-- C1 (amended): for every alias string and dependency map, alias removal
removes exactly the entries whose name begins with `alias + "/"`; an entry
named exactly like the alias is kept, as is an unrelated `"foobar"` entry,
while `"foo/x"` is removed by alias `"foo"`. -/
theorem C1_alias_removal_amended :
    (∀ (aliasName : String) (ds : Dependencies) (isDevDep : Bool) (recs : RemovalRecords),
      (removeAliasDeps aliasName (some ds) isDevDep recs).1 =
        some (ds.filter (fun p => !strStartsWith p.1 (aliasName ++ "/")))) ∧
    (removeAliasDeps "foo"
        (some [("foo", "1.0.0"), ("foo/x", "2.0.0"), ("foobar", "3.0.0")])
        false emptyRecords).1 = some [("foo", "1.0.0"), ("foobar", "3.0.0")] := by
  constructor
  · intro aliasName ds isDevDep recs
    simp [removeAliasDeps_fst]
  · decide

/-- C2 counterexample: on the exact Scenario D diagnostic (which names
`registry.example.com`) the classifier returns no signal, because its first
pattern matches only `registry.yarnpkg.com` URLs; and pruning with alias
`"@scope"` does not remove a dependency named exactly `"@scope"`. -/
theorem C2_counterexample :
    parseErrorForPackageAlias "https://registry.example.com/%40scope%2Fpkg: Not found" = none ∧
    (removeAliasDeps "@scope" (some [("@scope", "1.0.0")]) false emptyRecords).1 =
      some [("@scope", "1.0.0")] := by
  decide

/-- C2 (amended): for the diagnostic
`https://registry.yarnpkg.com/%40scope%2Fpkg: Not found` the classifier
percent-decodes the capture to `@scope/pkg` and returns alias `@scope`;
pruning with that alias removes exactly the dependencies whose name starts
with `@scope/` — a name exactly equal to `@scope` is kept. -/
theorem C2_scoped_alias_amended :
    parseErrorForPackageAlias "https://registry.yarnpkg.com/%40scope%2Fpkg: Not found" =
      some "@scope" ∧
    String.mk (percentDecodeChars ("%40scope%2Fpkg").data) = "@scope/pkg" ∧
    (∀ (ds : Dependencies) (isDevDep : Bool) (recs : RemovalRecords),
      (removeAliasDeps "@scope" (some ds) isDevDep recs).1 =
        some (ds.filter (fun p => !strStartsWith p.1 "@scope/"))) ∧
    (removeAliasDeps "@scope"
        (some [("@scope", "1.0.0"), ("@scope/pkg", "2.0.0"), ("lodash", "3.0.0")])
        false emptyRecords).1 = some [("@scope", "1.0.0"), ("lodash", "3.0.0")] := by
  refine ⟨by decide, by decide, ?_, by decide⟩
  intro ds isDevDep recs
  have h : ("@scope" : String) ++ "/" = "@scope/" := rfl
  simp [removeAliasDeps_fst, h]

/-- C3: the classifier evaluates its three diagnostic matchers in a fixed
order with the first matcher that yields an alias winning; the
Couldn-t-find-package diagnostic for `left-pad` yields `left-pad`; and for
any text on which none of the three matchers yields an alias, the result is
no-signal. -/
theorem C3_classifier_order :
    (∀ error : String, parseErrorForPackageAlias error =
        firstSome [shapeAlias registryShape error, shapeAlias packageShape error,
          shapeAlias versionsShape error]) ∧
    parseErrorForPackageAlias leftPadDiagnostic = some "left-pad" ∧
    (∀ error : String, shapeAlias registryShape error = none →
      shapeAlias packageShape error = none → shapeAlias versionsShape error = none →
      parseErrorForPackageAlias error = none) := by
  refine ⟨parse_eq_firstSome, by decide, ?_⟩
  intro error h1 h2 h3
  rw [parse_eq_firstSome, h1, h2, h3]
  rfl

/-- C3 witness: a concrete diagnostic matching none of the shapes is
classified as no-signal, via `C3_classifier_order`. -/
theorem C3_classifier_order_witness :
    shapeAlias registryShape "unrecognized diagnostic" = none ∧
    shapeAlias packageShape "unrecognized diagnostic" = none ∧
    shapeAlias versionsShape "unrecognized diagnostic" = none ∧
    parseErrorForPackageAlias "unrecognized diagnostic" = none :=
  ⟨by decide, by decide, by decide,
    C3_classifier_order.2.2 "unrecognized diagnostic" (by decide) (by decide) (by decide)⟩

/-- C5 counterexample: a genuine Pruning transition need not remove
anything.  With manifest `{"left-pad": "1.0.0"}` and the install failure
for `left-pad`, the classifier returns the alias `left-pad`, yet the prune
step removes no entry (nothing starts with `left-pad/`), so the manifest is
unchanged and the loop exhausts its budget. -/
theorem C5_counterexample :
    parseErrorForPackageAlias leftPadDiagnostic = some "left-pad" ∧
    installLoop (fun _ => some leftPadDiagnostic) 0
        ⟨some [("left-pad", "1.0.0")], none, none⟩ emptyRecords 1 =
      ⟨⟨some [("left-pad", "1.0.0")], none, none⟩, emptyRecords, 1, .exhausted⟩ := by
  decide

/-- C5 (amended): pruning transitions never add entries and shrink the
manifest only weakly — after any number of loop steps both dependency maps
are sublists of what they were, and each single prune keeps exactly the
entries whose name does not start with `alias + "/"` (which can be all of
them). -/
theorem C5_weak_shrinkage_amended :
    (∀ (oracle : Nat → Option String) (fuel attempt : Nat) (pj : PackageJson)
        (recs : RemovalRecords),
      ((installLoop oracle attempt pj recs fuel).packageJson.dependencies.getD []).Sublist
          (pj.dependencies.getD []) ∧
      ((installLoop oracle attempt pj recs fuel).packageJson.devDependencies.getD []).Sublist
          (pj.devDependencies.getD [])) ∧
    (∀ (aliasName : String) (ds : Dependencies) (isDevDep : Bool) (recs : RemovalRecords),
      (removeAliasDeps aliasName (some ds) isDevDep recs).1 =
        some (ds.filter (fun p => !strStartsWith p.1 (aliasName ++ "/")))) := by
  constructor
  · intro oracle fuel attempt pj recs
    exact installLoop_deps_sublist oracle fuel attempt pj recs
  · intro aliasName ds isDevDep recs
    simp [removeAliasDeps_fst]

/-- C7: the Manifest Pruner is idempotent — for every dependency map
(including an absent one), bucket selector (origin and kind) and predicate,
applying `removeAndRecordDependencies` a second time to the output of a
first application changes neither the map nor any audit bucket. -/
theorem C7_prune_idempotent (dependencies : Option Dependencies) (isDevDep : Bool)
    (dependencyType : DependencyType) (condition : String → Bool)
    (recs : RemovalRecords) :
    removeAndRecordDependencies
        (removeAndRecordDependencies dependencies isDevDep dependencyType condition recs).1
        isDevDep dependencyType condition
        (removeAndRecordDependencies dependencies isDevDep dependencyType condition recs).2 =
      removeAndRecordDependencies dependencies isDevDep dependencyType condition recs := by
  refine Prod.ext ?_ ?_
  · rw [removeAndRecordDependencies_fst, removeAndRecordDependencies_fst]
    cases dependencies with
    | none => rfl
    | some ds => simp [filter_not_idem]
  · rw [removeAndRecordDependencies_snd
      (removeAndRecordDependencies dependencies isDevDep dependencyType condition recs).1]
    have hnil : ((removeAndRecordDependencies dependencies isDevDep dependencyType
        condition recs).1.getD []).filter (fun p => condition p.1) = [] := by
      rw [removeAndRecordDependencies_fst, getD_map_filter]
      exact filter_pos_of_filtered_neg _ _
    rw [hnil]
    simp only [List.foldl_nil]
    exact setRecord_getRecord dependencyType isDevDep _

/-- C9 counterexample: the export step creates no directory at all — its
effect trace consists of exactly the four file writes and contains no
`makeDir`, so a missing output directory is not created before writing. -/
theorem C9_counterexample :
    containsMakeDir (saveRemovedItems "out" emptyRecords) = false ∧
    saveRemovedItems "out" emptyRecords =
      [FsOp.writeJson "out/details/removedLocalPackages.json" (.record []),
       FsOp.writeJson "out/details/removedLockedPackages.json" (.record []),
       FsOp.writeJson "out/details/removedScripts.json" (.record []),
       FsOp.writeJson "out/allRemovedItems.json" (.summary [] [] [])] := by
  decide

/-- C9 (amended): the Audit Exporter runs exactly once after the loop
reaches any terminal state and unconditionally emits the four export
documents built from whatever was removed up to that point — but it never
creates a missing output directory. -/
theorem C9_export_amended (packageJson : PackageJson) (locked : LockedDependencies)
    (oracle : Nat → Option String) (exportRootPath : String) :
    (cleanPackageJsonRun packageJson locked oracle exportRootPath).2 =
      saveRemovedItems exportRootPath (cleanPackageJson packageJson locked oracle).records ∧
    ((cleanPackageJsonRun packageJson locked oracle exportRootPath).2).length = 4 ∧
    containsMakeDir ((cleanPackageJsonRun packageJson locked oracle exportRootPath).2) = false := by
  refine ⟨rfl, ?_, ?_⟩ <;>
    simp [cleanPackageJsonRun, saveRemovedItems, containsMakeDir, saveJson]

lemma cleanPackageJson_scripts (packageJson : PackageJson)
    (locked : LockedDependencies) (oracle : Nat → Option String) :
    (cleanPackageJson packageJson locked oracle).packageJson.scripts = none ∧
    (cleanPackageJson packageJson locked oracle).records.removedScripts =
      (packageJson.scripts.getD []).foldl (fun r p => recordSet r p.1 p.2) [] := by
  unfold cleanPackageJson
  constructor
  · rw [(installLoop_scripts_inv oracle _ _ _ _).1]
    simp [removeScripts_fst_scripts]
  · rw [(installLoop_scripts_inv oracle _ _ _ _).2]
    simp [removeLockedDeps, removeAndRecordDependencies_snd_removedScripts,
      removeScripts_snd_removedScripts, emptyRecords]

/-- C4: for every initial manifest the retry loop makes at most
`entryBudget` install attempts, where `entryBudget` is the count of entries
in both dependency maps at loop entry; this is bounded by the initial
dependency plus devDependency count, so the whole run performs at most
`initial count + 1` attempts. -/
theorem C4_retry_budget (packageJson : PackageJson) (locked : LockedDependencies)
    (oracle : Nat → Option String) :
    (cleanPackageJson packageJson locked oracle).attempts ≤ entryBudget packageJson locked ∧
    entryBudget packageJson locked ≤
      (packageJson.dependencies.getD []).length +
        (packageJson.devDependencies.getD []).length ∧
    (cleanPackageJson packageJson locked oracle).attempts ≤
      (packageJson.dependencies.getD []).length +
        (packageJson.devDependencies.getD []).length + 1 := by
  have h1 : (cleanPackageJson packageJson locked oracle).attempts ≤
      entryBudget packageJson locked := by
    unfold cleanPackageJson entryBudget
    exact installLoop_attempts_le oracle _ _ _ _
  have h2 : entryBudget packageJson locked ≤
      (packageJson.dependencies.getD []).length +
        (packageJson.devDependencies.getD []).length := by
    simp only [entryBudget, removeScripts_fst_dependencies,
      removeScripts_fst_devDependencies, removeLockedDeps_fst, getD_map_filter]
    exact Nat.add_le_add (List.length_filter_le _ _) (List.length_filter_le _ _)
  exact ⟨h1, h2, by omega⟩

/-- C10: the clean operation unconditionally removes the whole `scripts`
mapping before the first install attempt — whatever the oracle answers, the
final manifest has no scripts and the removed-scripts bucket holds every
original script entry with its original command string (exactly the
original mapping when its keys are unique); when the manifest has no
`scripts` mapping, the scripts pass changes nothing. -/
theorem C10_scripts_removal (packageJson : PackageJson) (locked : LockedDependencies)
    (oracle : Nat → Option String) :
    (cleanPackageJson packageJson locked oracle).packageJson.scripts = none ∧
    (cleanPackageJson packageJson locked oracle).records.removedScripts =
      (packageJson.scripts.getD []).foldl (fun r p => recordSet r p.1 p.2) [] ∧
    (∀ s, packageJson.scripts = some s → (keysOf s).Nodup →
      (cleanPackageJson packageJson locked oracle).records.removedScripts = s) ∧
    (packageJson.scripts = none →
      removeScripts packageJson emptyRecords = (packageJson, emptyRecords)) := by
  refine ⟨(cleanPackageJson_scripts packageJson locked oracle).1,
    (cleanPackageJson_scripts packageJson locked oracle).2, ?_, ?_⟩
  · intro s hs hnd
    rw [(cleanPackageJson_scripts packageJson locked oracle).2, hs]
    have := foldl_recordSet_append s [] hnd (by simp [keysOf])
    simpa using this
  · intro hs
    simp [removeScripts, hs]

/-- C10 witness: a run over a manifest with two scripts ends with both in
the removed-scripts bucket, and the scripts pass is the identity on a
manifest without scripts, via `C10_scripts_removal`. -/
theorem C10_scripts_removal_witness :
    (cleanPackageJson ⟨none, none, some [("build", "tsc"), ("lint", "eslint .")]⟩ []
        (fun _ => none)).records.removedScripts = [("build", "tsc"), ("lint", "eslint .")] ∧
    removeScripts ⟨some [("a", "1.0.0")], none, none⟩ emptyRecords =
      (⟨some [("a", "1.0.0")], none, none⟩, emptyRecords) :=
  ⟨(C10_scripts_removal ⟨none, none, some [("build", "tsc"), ("lint", "eslint .")]⟩ []
      (fun _ => none)).2.2.1 _ rfl (by decide),
   (C10_scripts_removal ⟨some [("a", "1.0.0")], none, none⟩ [] (fun _ => none)).2.2.2 rfl⟩

lemma lockedPrePass_dep_perm (locked : LockedDependencies) (pj : PackageJson)
    (hd : (keysOf (pj.dependencies.getD [])).Nodup) :
    (depTriple
      { (removeScripts pj emptyRecords).1 with
          dependencies := (removeLockedDeps locked
            (removeScripts pj emptyRecords).1.dependencies false
            (removeScripts pj emptyRecords).2).1,
          devDependencies := (removeLockedDeps locked
            (removeScripts pj emptyRecords).1.devDependencies true
            (removeLockedDeps locked (removeScripts pj emptyRecords).1.dependencies false
              (removeScripts pj emptyRecords).2).2).1 }
      (removeLockedDeps locked (removeScripts pj emptyRecords).1.devDependencies true
        (removeLockedDeps locked (removeScripts pj emptyRecords).1.dependencies false
          (removeScripts pj emptyRecords).2).2).2).Perm
    (pj.dependencies.getD []) := by
  simp only [depTriple, removeLockedDeps_fst, removeLockedDeps_snd_main,
    removeLockedDeps_snd_dev, removeScripts_fst_dependencies,
    removeScripts_fst_devDependencies, getD_map_filter,
    removeScripts_snd_dep_buckets, emptyRecords]
  have h := pruneStepLocked_perm (pj.dependencies.getD []) [] []
    (fun name => lockedHas locked name) (by simpa using hd)
  simpa using h

lemma lockedPrePass_dev_perm (locked : LockedDependencies) (pj : PackageJson)
    (hv : (keysOf (pj.devDependencies.getD [])).Nodup) :
    (devTriple
      { (removeScripts pj emptyRecords).1 with
          dependencies := (removeLockedDeps locked
            (removeScripts pj emptyRecords).1.dependencies false
            (removeScripts pj emptyRecords).2).1,
          devDependencies := (removeLockedDeps locked
            (removeScripts pj emptyRecords).1.devDependencies true
            (removeLockedDeps locked (removeScripts pj emptyRecords).1.dependencies false
              (removeScripts pj emptyRecords).2).2).1 }
      (removeLockedDeps locked (removeScripts pj emptyRecords).1.devDependencies true
        (removeLockedDeps locked (removeScripts pj emptyRecords).1.dependencies false
          (removeScripts pj emptyRecords).2).2).2).Perm
    (pj.devDependencies.getD []) := by
  simp only [devTriple, removeLockedDeps_fst, removeLockedDeps_snd_main,
    removeLockedDeps_snd_dev, removeScripts_fst_dependencies,
    removeScripts_fst_devDependencies, getD_map_filter,
    removeScripts_snd_dep_buckets, emptyRecords]
  have h := pruneStepLocked_perm (pj.devDependencies.getD []) [] []
    (fun name => lockedHas locked name) (by simpa using hv)
  simpa using h

/-- C6: conservation — for every run over a manifest whose dependency and
devDependency maps have unique keys, the final dependency map together with
the local and locked removal buckets is a permutation of the original
dependency map (names with their original version strings, none lost, none
duplicated: the combined key list is itself duplicate-free), and likewise
for the devDependency map with its two buckets. -/
theorem C6_conservation (packageJson : PackageJson) (locked : LockedDependencies)
    (oracle : Nat → Option String)
    (hd : (keysOf (packageJson.dependencies.getD [])).Nodup)
    (hv : (keysOf (packageJson.devDependencies.getD [])).Nodup) :
    (depTriple (cleanPackageJson packageJson locked oracle).packageJson
        (cleanPackageJson packageJson locked oracle).records).Perm
      (packageJson.dependencies.getD []) ∧
    (keysOf (depTriple (cleanPackageJson packageJson locked oracle).packageJson
        (cleanPackageJson packageJson locked oracle).records)).Nodup ∧
    (devTriple (cleanPackageJson packageJson locked oracle).packageJson
        (cleanPackageJson packageJson locked oracle).records).Perm
      (packageJson.devDependencies.getD []) ∧
    (keysOf (devTriple (cleanPackageJson packageJson locked oracle).packageJson
        (cleanPackageJson packageJson locked oracle).records)).Nodup := by
  have h1 := lockedPrePass_dep_perm locked packageJson hd
  have h2 := lockedPrePass_dev_perm locked packageJson hv
  have hd0 := (List.Perm.nodup_iff (h1.map Prod.fst)).mpr hd
  have hv0 := (List.Perm.nodup_iff (h2.map Prod.fst)).mpr hv
  have hloop := installLoop_triple_perm oracle
    ((((removeLockedDeps locked (removeScripts packageJson emptyRecords).1.dependencies false
        (removeScripts packageJson emptyRecords).2).1.getD []).length +
      ((removeLockedDeps locked (removeScripts packageJson emptyRecords).1.devDependencies true
        (removeLockedDeps locked (removeScripts packageJson emptyRecords).1.dependencies false
          (removeScripts packageJson emptyRecords).2).2).1.getD []).length))
    0 _ _ hd0 hv0
  have hfd : (depTriple (cleanPackageJson packageJson locked oracle).packageJson
      (cleanPackageJson packageJson locked oracle).records).Perm
      (packageJson.dependencies.getD []) := List.Perm.trans hloop.1 h1
  have hfv : (devTriple (cleanPackageJson packageJson locked oracle).packageJson
      (cleanPackageJson packageJson locked oracle).records).Perm
      (packageJson.devDependencies.getD []) := List.Perm.trans hloop.2 h2
  exact ⟨hfd, (List.Perm.nodup_iff (hfd.map Prod.fst)).mpr hd, hfv,
    (List.Perm.nodup_iff (hfv.map Prod.fst)).mpr hv⟩

/-- C6 witness: a concrete run — `a` is locked, the first install attempt
fails for `left-pad`, the second succeeds — conserves both maps, via
`C6_conservation`. -/
theorem C6_conservation_witness :
    (depTriple (cleanPackageJson
        ⟨some [("a", "1.0.0"), ("b", "2.0.0")], some [("c", "3.0.0")], none⟩
        [("a", ⟨"a", "1.0.0"⟩)]
        (fun n => if n = 0 then some leftPadDiagnostic else none)).packageJson
      (cleanPackageJson
        ⟨some [("a", "1.0.0"), ("b", "2.0.0")], some [("c", "3.0.0")], none⟩
        [("a", ⟨"a", "1.0.0"⟩)]
        (fun n => if n = 0 then some leftPadDiagnostic else none)).records).Perm
      [("a", "1.0.0"), ("b", "2.0.0")] ∧
    (keysOf (depTriple (cleanPackageJson
        ⟨some [("a", "1.0.0"), ("b", "2.0.0")], some [("c", "3.0.0")], none⟩
        [("a", ⟨"a", "1.0.0"⟩)]
        (fun n => if n = 0 then some leftPadDiagnostic else none)).packageJson
      (cleanPackageJson
        ⟨some [("a", "1.0.0"), ("b", "2.0.0")], some [("c", "3.0.0")], none⟩
        [("a", ⟨"a", "1.0.0"⟩)]
        (fun n => if n = 0 then some leftPadDiagnostic else none)).records)).Nodup ∧
    (devTriple (cleanPackageJson
        ⟨some [("a", "1.0.0"), ("b", "2.0.0")], some [("c", "3.0.0")], none⟩
        [("a", ⟨"a", "1.0.0"⟩)]
        (fun n => if n = 0 then some leftPadDiagnostic else none)).packageJson
      (cleanPackageJson
        ⟨some [("a", "1.0.0"), ("b", "2.0.0")], some [("c", "3.0.0")], none⟩
        [("a", ⟨"a", "1.0.0"⟩)]
        (fun n => if n = 0 then some leftPadDiagnostic else none)).records).Perm
      [("c", "3.0.0")] ∧
    (keysOf (devTriple (cleanPackageJson
        ⟨some [("a", "1.0.0"), ("b", "2.0.0")], some [("c", "3.0.0")], none⟩
        [("a", ⟨"a", "1.0.0"⟩)]
        (fun n => if n = 0 then some leftPadDiagnostic else none)).packageJson
      (cleanPackageJson
        ⟨some [("a", "1.0.0"), ("b", "2.0.0")], some [("c", "3.0.0")], none⟩
        [("a", ⟨"a", "1.0.0"⟩)]
        (fun n => if n = 0 then some leftPadDiagnostic else none)).records)).Nodup :=
  C6_conservation
    ⟨some [("a", "1.0.0"), ("b", "2.0.0")], some [("c", "3.0.0")], none⟩
    [("a", ⟨"a", "1.0.0"⟩)]
    (fun n => if n = 0 then some leftPadDiagnostic else none)
    (by decide) (by decide)

/-- C8: whenever an install attempt fails and the classifier returns
no-signal, the loop stops at once with the state unchanged, one attempt
consumed, and the raw diagnostic surfaced in the exit; and for an
otherwise-untouched run (no scripts, no locked-set matches, at least one
dependency so the loop runs) whose first attempt fails unclassifiably, the
whole run leaves the manifest unchanged, every removal bucket empty, and
still produces the export (from the all-empty records). -/
theorem C8_abort_on_no_signal :
    (∀ (oracle : Nat → Option String) (attempt : Nat) (pj : PackageJson)
        (recs : RemovalRecords) (fuel : Nat) (err : String),
      oracle attempt = some err → parseErrorForPackageAlias err = none →
      installLoop oracle attempt pj recs (fuel + 1) = ⟨pj, recs, 1, .aborted err⟩) ∧
    (∀ (packageJson : PackageJson) (locked : LockedDependencies)
        (oracle : Nat → Option String) (err exportRootPath : String),
      packageJson.scripts = none →
      (∀ p ∈ packageJson.dependencies.getD [], lockedHas locked p.1 = false) →
      (∀ p ∈ packageJson.devDependencies.getD [], lockedHas locked p.1 = false) →
      0 < (packageJson.dependencies.getD []).length +
        (packageJson.devDependencies.getD []).length →
      oracle 0 = some err →
      parseErrorForPackageAlias err = none →
      cleanPackageJsonRun packageJson locked oracle exportRootPath =
        (⟨packageJson, emptyRecords, 1, .aborted err⟩,
         saveRemovedItems exportRootPath emptyRecords)) := by
  constructor
  · intro oracle attempt pj recs fuel err h0 hparse
    simp [installLoop, h0, hparse]
  intro packageJson locked oracle err exportRootPath hscr hdep hdev hpos h0 hparse
  have hs : removeScripts packageJson emptyRecords = (packageJson, emptyRecords) := by
    simp [removeScripts, hscr]
  have hD1 : (removeLockedDeps locked packageJson.dependencies false emptyRecords).1 =
      packageJson.dependencies := by
    rw [removeLockedDeps_fst]
    cases hx : packageJson.dependencies with
    | none => rfl
    | some ds =>
      refine congrArg some (List.filter_eq_self.mpr ?_)
      intro p hp
      have := hdep p (by simp [hx, hp])
      simp [this]
  have hDnil : (packageJson.dependencies.getD []).filter
      (fun p => lockedHas locked p.1) = [] := by
    rw [List.filter_eq_nil_iff]
    intro p hp
    simp [hdep p hp]
  have hD2 : (removeLockedDeps locked packageJson.dependencies false emptyRecords).2 =
      emptyRecords := by
    rw [removeLockedDeps_snd_main, hDnil]
    rfl
  have hV1 : (removeLockedDeps locked packageJson.devDependencies true emptyRecords).1 =
      packageJson.devDependencies := by
    rw [removeLockedDeps_fst]
    cases hx : packageJson.devDependencies with
    | none => rfl
    | some ds =>
      refine congrArg some (List.filter_eq_self.mpr ?_)
      intro p hp
      have := hdev p (by simp [hx, hp])
      simp [this]
  have hVnil : (packageJson.devDependencies.getD []).filter
      (fun p => lockedHas locked p.1) = [] := by
    rw [List.filter_eq_nil_iff]
    intro p hp
    simp [hdev p hp]
  have hV2 : (removeLockedDeps locked packageJson.devDependencies true emptyRecords).2 =
      emptyRecords := by
    rw [removeLockedDeps_snd_dev, hVnil]
    rfl
  have hclean : cleanPackageJson packageJson locked oracle =
      installLoop oracle 0 packageJson emptyRecords
        ((packageJson.dependencies.getD []).length +
          (packageJson.devDependencies.getD []).length) := by
    simp only [cleanPackageJson, hs, hD1, hD2, hV1, hV2]
  obtain ⟨n, hn⟩ : ∃ n, (packageJson.dependencies.getD []).length +
      (packageJson.devDependencies.getD []).length = n + 1 :=
    ⟨(packageJson.dependencies.getD []).length +
      (packageJson.devDependencies.getD []).length - 1, by omega⟩
  have hloop : installLoop oracle 0 packageJson emptyRecords
      ((packageJson.dependencies.getD []).length +
        (packageJson.devDependencies.getD []).length) =
      ⟨packageJson, emptyRecords, 1, .aborted err⟩ := by
    rw [hn]
    simp [installLoop, h0, hparse]
  simp [cleanPackageJsonRun, hclean, hloop]

/-- C8 witness: the concrete untouched run with one dependency whose first
install attempt fails with the unclassifiable text `boom`, via
`C8_abort_on_no_signal`. -/
theorem C8_abort_on_no_signal_witness :
    installLoop (fun _ => some "boom") 0 ⟨some [("lodash", "4.17.21")], none, none⟩
        emptyRecords 1 =
      ⟨⟨some [("lodash", "4.17.21")], none, none⟩, emptyRecords, 1, .aborted "boom"⟩ ∧
    cleanPackageJsonRun ⟨some [("lodash", "4.17.21")], none, none⟩ []
        (fun _ => some "boom") "out" =
      (⟨⟨some [("lodash", "4.17.21")], none, none⟩, emptyRecords, 1, .aborted "boom"⟩,
       saveRemovedItems "out" emptyRecords) :=
  ⟨C8_abort_on_no_signal.1 (fun _ => some "boom") 0
      ⟨some [("lodash", "4.17.21")], none, none⟩ emptyRecords 0 "boom" rfl (by decide),
   C8_abort_on_no_signal.2 ⟨some [("lodash", "4.17.21")], none, none⟩ []
      (fun _ => some "boom") "boom" "out" rfl (by decide) (by decide) (by decide) rfl
      (by decide)⟩
